import Mathlib

/-!
Verification of the HTTP-SSE streaming core of trpc-cpp against its design
specification.  Each component the claims touch is shallowly embedded: the
SSE request/response validator, the event encoder, the streaming decode loop,
the per-connection stream writer, the connection registry with its lock/trace
discipline, the multiplexed stream handler, the SSE stream readiness state
machine, and the synchronous client bridge's filter flow.
-/

/-! ## SSE request validation (trpc/codec/http_sse/http_sse_proto_checker.cc) -/

/-- An HTTP request as the checker sees it: a method string and a header list. -/
structure HttpRequest where
  method : String
  headers : List (String × String)

/-- Lower-case a character sequence (ASCII case folding, as Char.toLower). -/
def lowerChars (s : List Char) : List Char :=
  s.map Char.toLower

/-- GetHeader: header-name lookup is case-insensitive (framework header map);
the stored value is returned verbatim, or the empty string when absent. -/
def getHeader (req : HttpRequest) (name : String) : String :=
  match req.headers.find? (fun kv => lowerChars kv.1.data == lowerChars name.data) with
  | some kv => kv.2
  | none => ""

/-- Case-sensitive substring containment, as std::string::find != npos. -/
def containsSub : List Char → List Char → Bool
  | [], needle => needle.isEmpty
  | h :: t, needle => needle.isPrefixOf (h :: t) || containsSub t needle

/-- IsValidSseRequest, translated from http_sse_proto_checker.cc: null check,
then a case-SENSITIVE substring search of "text/event-stream" in the Accept
header value, then a method check against "GET". -/
def IsValidSseRequest (request : Option HttpRequest) : Bool :=
  match request with
  | none => false
  | some r =>
    if !(containsSub (getHeader r "Accept").data "text/event-stream".data) then false
    else if r.method != "GET" then false
    else true

/-- Drop leading whitespace. -/
def trimL (s : List Char) : List Char :=
  s.dropWhile Char.isWhitespace

/-- Trim whitespace on both ends. -/
def trimChars (s : List Char) : List Char :=
  ((trimL s).reverse.dropWhile Char.isWhitespace).reverse

/-- The validator as the specification words it: method GET and the Accept
value, compared case-insensitively after trimming whitespace, contains the
substring text/event-stream. -/
def specValidSseRequest (request : Option HttpRequest) : Bool :=
  match request with
  | none => false
  | some r =>
    r.method == "GET" &&
      containsSub (lowerChars (trimChars (getHeader r "Accept").data))
        "text/event-stream".data

/-! ## SSE event encoding (SseEvent::ToString, ssestreamwriter_test.cc) -/

/-- One SSE event: optional type, data (may hold internal newlines),
optional id, optional retry in milliseconds. -/
structure SseEvent where
  event_type : String := ""
  data : String := ""
  id : Option String := none
  retry : Option Nat := none
deriving DecidableEq

/-- std::getline splitting: "a\nb" gives [a, b], "a\n" gives [a],
"\n" gives [the empty line], "" gives []. -/
def getLines : List Char → List (List Char)
  | [] => []
  | c :: rest =>
    if c = '\n' then [] :: getLines rest
    else
      match getLines rest with
      | [] => [[c]]
      | l :: ls => (c :: l) :: ls

/-- SseEvent::ToString translated from the test's reference implementation:
event line if the type is non-empty, one data line per getline line of data
(empty data emits nothing), id line if present and non-empty, retry line if
present, then the terminating blank line. -/
def eventToString (ev : SseEvent) : List Char :=
  (if ev.event_type != "" then "event: ".data ++ ev.event_type.data ++ ['\n'] else [])
  ++ ((getLines ev.data.data).map (fun l => "data: ".data ++ l ++ ['\n'])).flatten
  ++ (match ev.id with
      | some i => if i != "" then "id: ".data ++ i.data ++ ['\n'] else []
      | none => [])
  ++ (match ev.retry with
      | some r => "retry: ".data ++ (toString r).data ++ ['\n']
      | none => [])
  ++ ['\n']

/-- C1 (code_bug evidence): the checker's substring search is case-sensitive,
so a GET request whose Accept value is "TEXT/EVENT-STREAM" is rejected by the
code, while the spec's case-insensitive validator (and the repository's own
EdgeCase_CaseInsensitiveHeaders test) accept it; the multi-type Accept value
from the spec is accepted by both. -/
theorem C1_code_eval :
    IsValidSseRequest (some { method := "GET", headers := [("Accept", "TEXT/EVENT-STREAM")] }) = false
    ∧ specValidSseRequest (some { method := "GET", headers := [("Accept", "TEXT/EVENT-STREAM")] }) = true
    ∧ IsValidSseRequest (some { method := "GET", headers := [("Accept", "text/html,text/event-stream")] }) = true
    ∧ IsValidSseRequest (some { method := "POST", headers := [("Accept", "text/event-stream")] }) = false
    ∧ IsValidSseRequest (some { method := "GET", headers := [("Accept", "  text/event-stream  ")] }) = true := by
  decide

/-- Lines produced by getLines never contain a newline character. -/
theorem mem_getLines_no_newline : ∀ (s : List Char) (l : List Char), l ∈ getLines s → '\n' ∉ l := by
  intro s
  induction s with
  | nil => intro l hl; simp [getLines] at hl
  | cons c rest ih =>
    intro l hl
    by_cases hc : c = '\n'
    · simp only [getLines, if_pos hc] at hl
      rcases List.mem_cons.mp hl with rfl | hl
      · simp
      · exact ih l hl
    · simp only [getLines, if_neg hc] at hl
      cases hrest : getLines rest with
      | nil =>
        rw [hrest] at hl
        simp only [List.mem_singleton] at hl
        subst hl
        intro hmem
        rcases List.mem_singleton.mp hmem with h
        exact hc h.symm
      | cons m ms =>
        rw [hrest] at hl
        rcases List.mem_cons.mp hl with rfl | hl
        · have hm : '\n' ∉ m := ih m (by rw [hrest]; exact List.mem_cons_self m ms)
          intro hmem
          rcases List.mem_cons.mp hmem with h | h
          · exact hc h.symm
          · exact hm h
        · exact ih l (by rw [hrest]; exact List.mem_cons_of_mem m hl)

/-- A conditional single line: present when the guard holds. -/
def optLine (p : Bool) (x : List Char) : List (List Char) :=
  if p then [x] else []

/-- Membership in optLine forces the line itself. -/
theorem mem_optLine {p : Bool} {x l : List Char} (h : l ∈ optLine p x) : l = x := by
  unfold optLine at h
  split at h
  · exact List.mem_singleton.mp h
  · simp at h

/-- The body lines of a serialized event: every line of the frame except the
terminating blank line. -/
def bodyOf (ev : SseEvent) : List (List Char) :=
  optLine (ev.event_type != "") ("event: ".data ++ ev.event_type.data)
  ++ (getLines ev.data.data).map (fun l => "data: ".data ++ l)
  ++ (match ev.id with
      | some i => optLine (i != "") ("id: ".data ++ i.data)
      | none => [])
  ++ (match ev.retry with
      | some r => ["retry: ".data ++ (toString r).data]
      | none => [])

/-- C8: encoding data "a\nb" yields exactly the two lines data: a, data: b and
the terminating blank line; with all fields present the order is event, data
lines, id, retry; an empty data field emits no data line; and in general (for
field values without embedded newlines) the frame is a sequence of non-blank
lines followed by exactly one blank line. -/
theorem C8_encode :
    eventToString { data := "a\nb" } = "data: a\ndata: b\n\n".data
    ∧ eventToString { event_type := "t", data := "a\nb", id := some "7", retry := some 42 }
        = "event: t\ndata: a\ndata: b\nid: 7\nretry: 42\n\n".data
    ∧ eventToString { event_type := "t", data := "", id := some "7", retry := some 42 }
        = "event: t\nid: 7\nretry: 42\n\n".data
    ∧ ∀ ev : SseEvent, '\n' ∉ ev.event_type.data →
        (∀ i, ev.id = some i → '\n' ∉ i.data) →
        (∀ r, ev.retry = some r → '\n' ∉ (toString r).data) →
        ∃ body : List (List Char),
          eventToString ev = (body.map (fun l => l ++ ['\n'])).flatten ++ ['\n']
          ∧ ∀ l ∈ body, l ≠ [] ∧ '\n' ∉ l := by
  refine ⟨by decide, by decide, by decide, ?_⟩
  intro ev h1 h2 h3
  refine ⟨bodyOf ev, ?_, ?_⟩
  · unfold eventToString bodyOf optLine
    cases hid : ev.id <;> cases hr : ev.retry <;>
      simp [List.map_append, List.flatten_append, List.map_map, Function.comp_def,
        List.append_assoc, apply_ite (List.map (fun l => l ++ ['\n'])),
        apply_ite List.flatten]
  · intro l hl
    unfold bodyOf at hl
    simp only [List.mem_append] at hl
    rcases hl with ((hl | hl) | hl) | hl
    · have hx : l = "event: ".data ++ ev.event_type.data := mem_optLine hl
      subst hx
      refine ⟨by simp, ?_⟩
      intro hmem
      rcases List.mem_append.mp hmem with h | h
      · revert h; decide
      · exact h1 h
    · rcases List.mem_map.mp hl with ⟨m, hm, rfl⟩
      refine ⟨by simp, ?_⟩
      intro hmem
      rcases List.mem_append.mp hmem with h | h
      · revert h; decide
      · exact mem_getLines_no_newline _ m hm h
    · cases hid : ev.id with
      | none =>
        rw [hid] at hl
        exact absurd hl (List.not_mem_nil l)
      | some i =>
        rw [hid] at hl
        have hx : l = "id: ".data ++ i.data := mem_optLine hl
        subst hx
        refine ⟨by simp, ?_⟩
        intro hmem
        rcases List.mem_append.mp hmem with h | h
        · revert h; decide
        · exact h2 i hid h
    · cases hr : ev.retry with
      | none =>
        rw [hr] at hl
        exact absurd hl (List.not_mem_nil l)
      | some r =>
        rw [hr] at hl
        have hx : l = "retry: ".data ++ (toString r).data := List.mem_singleton.mp hl
        subst hx
        refine ⟨by simp, ?_⟩
        intro hmem
        rcases List.mem_append.mp hmem with h | h
        · revert h; decide
        · exact h3 r hr h

/-- Witness for C8: the general blank-line property applied at a concrete event. -/
theorem C8_encode_witness :
    ∃ body : List (List Char),
      eventToString { event_type := "t", data := "a\nb", id := some "7", retry := some 42 }
        = (body.map (fun l => l ++ ['\n'])).flatten ++ ['\n']
      ∧ ∀ l ∈ body, l ≠ [] ∧ '\n' ∉ l :=
  C8_encode.2.2.2 { event_type := "t", data := "a\nb", id := some "7", retry := some 42 }
    (by decide) (fun i hi => by cases hi; decide) (fun r hr => by cases hr; decide)

/-! ## Streaming decode loop (HttpSseStreamProxy::ProcessSseStream,
trpc/client/sse/http_sse_stream_proxy.cc)

The loop accumulates read chunks in a buffer, repeatedly cuts off the prefix
up to and including the first blank-line marker as one complete
event segment, and keeps the trailing segment (no terminating blank line yet)
as the remainder for the next read.  splitEvents models one pass of that
inner extraction loop on the accumulated buffer. -/

/-- Index of the first occurrence of the "\n\n" frame terminator, as
std::string::find of a two-character pattern. -/
def findNN : List Char → Option Nat
  | [] => none
  | [_] => none
  | a :: b :: t => if a = '\n' ∧ b = '\n' then some 0 else (findNN (b :: t)).map (· + 1)

/-- A found terminator lies entirely inside the buffer. -/
theorem findNN_bound : ∀ {s : List Char} {i : Nat}, findNN s = some i → i + 2 ≤ s.length := by
  intro s
  induction s with
  | nil => intro i h; simp [findNN] at h
  | cons a t ih =>
    intro i h
    cases t with
    | nil => simp [findNN] at h
    | cons b t2 =>
      rw [findNN] at h
      split at h
      · cases h
        simp
      · obtain ⟨j, hj, rfl⟩ := Option.map_eq_some'.mp h
        have := ih hj
        simp only [List.length_cons] at this ⊢
        omega

/-- The first terminator of a buffer stays the first terminator after more
bytes are appended. -/
theorem findNN_append_some :
    ∀ {s : List Char} {i : Nat}, findNN s = some i → ∀ (b : List Char), findNN (s ++ b) = some i := by
  intro s
  induction s with
  | nil => intro i h; simp [findNN] at h
  | cons a t ih =>
    intro i h b
    cases t with
    | nil => simp [findNN] at h
    | cons c t2 =>
      rw [findNN] at h
      rw [List.cons_append, List.cons_append, findNN]
      split at h
      · cases h
        rename_i hcc
        rw [if_pos hcc]
      · obtain ⟨j, hj, rfl⟩ := Option.map_eq_some'.mp h
        rename_i hcc
        rw [if_neg hcc]
        have := ih hj b
        rw [List.cons_append] at this
        rw [this]
        rfl

/-- One pass of the extraction loop: cut complete segments (each ending with
the blank-line marker) off the front of the buffer and return them together
with the trailing remainder, exactly as the find-loop in ProcessSseStream. -/
def splitEvents (s : List Char) : List (List Char) × List Char :=
  match h : findNN s with
  | none => ([], s)
  | some i =>
    let rest := splitEvents (s.drop (i + 2))
    (s.take (i + 2) :: rest.1, rest.2)
termination_by s.length
decreasing_by
  simp_wf
  have hb := findNN_bound h
  omega

/-- splitEvents on a buffer with no terminator: nothing parsed, all remainder. -/
theorem splitEvents_none {s : List Char} (h : findNN s = none) : splitEvents s = ([], s) := by
  rw [splitEvents.eq_def]
  split
  · rfl
  · rename_i i hi
    rw [h] at hi
    cases hi

/-- splitEvents on a buffer whose first terminator ends at i + 2. -/
theorem splitEvents_some {s : List Char} {i : Nat} (h : findNN s = some i) :
    splitEvents s
      = (s.take (i + 2) :: (splitEvents (s.drop (i + 2))).1, (splitEvents (s.drop (i + 2))).2) := by
  rw [splitEvents.eq_def]
  split
  · rename_i hn
    rw [h] at hn
    cases hn
  · rename_i j hj
    rw [h] at hj
    cases hj
    rfl

/-- Appending more bytes to a buffer extracts the same leading segments and
then continues from the old remainder joined with the new bytes. -/
theorem splitEvents_append (a b : List Char) :
    splitEvents (a ++ b)
      = ((splitEvents a).1 ++ (splitEvents ((splitEvents a).2 ++ b)).1,
         (splitEvents ((splitEvents a).2 ++ b)).2) := by
  generalize hn : a.length = n
  induction n using Nat.strong_induction_on generalizing a b with
  | _ n ih =>
    cases hf : findNN a with
    | none =>
      rw [splitEvents_none hf]
      simp
    | some i =>
      have hb := findNN_bound hf
      have hf2 : findNN (a ++ b) = some i := findNN_append_some hf b
      rw [splitEvents_some hf, splitEvents_some hf2]
      rw [List.take_append_of_le_length hb, List.drop_append_of_le_length hb]
      have hlen : (a.drop (i + 2)).length < n := by
        rw [List.length_drop]
        omega
      have hrec := ih _ hlen (a.drop (i + 2)) b rfl
      rw [hrec]
      simp

/-- The remainder kept by splitEvents never contains a frame terminator, so
it is held back rather than parsed. -/
theorem findNN_splitEvents_remainder (s : List Char) : findNN (splitEvents s).2 = none := by
  generalize hn : s.length = n
  induction n using Nat.strong_induction_on generalizing s with
  | _ n ih =>
    cases hf : findNN s with
    | none =>
      rw [splitEvents_none hf]
      exact hf
    | some i =>
      have hb := findNN_bound hf
      rw [splitEvents_some hf]
      exact ih _ (by rw [List.length_drop]; omega) _ rfl

/-- C7: feeding the decode loop a byte sequence split at an arbitrary boundary
across two reads (prepending the first read's remainder to the second chunk)
extracts exactly the same list of complete event segments — hence the same
parsed events — and the same final remainder as feeding the whole sequence in
one read; the trailing segment with no terminating blank line is kept as
remainder (it contains no terminator) rather than parsed. -/
theorem C7_streaming_decode (s : List Char) (k : Nat) :
    (splitEvents (s.take k)).1 ++ (splitEvents ((splitEvents (s.take k)).2 ++ s.drop k)).1
        = (splitEvents s).1
    ∧ (splitEvents ((splitEvents (s.take k)).2 ++ s.drop k)).2 = (splitEvents s).2
    ∧ findNN (splitEvents s).2 = none := by
  have h := splitEvents_append (s.take k) (s.drop k)
  rw [List.take_append_drop] at h
  refine ⟨?_, ?_, findNN_splitEvents_remainder s⟩
  · rw [h]
  · rw [h]

/-! ## Per-connection stream writer (SseStreamWriter, ssestreamwriter.h)

The writer state is exactly the source's fields: the atomic open flag and
whether the bound server context is non-null.  The outcome of one
ctx->SendResponse call is a behaviour parameter: it can return an OK status,
throw, or return a non-OK status.  writerWrite mirrors Write(event): closed
check, ZeroCopyEncode, null-context check, then SendResponse inside try/catch
with the returned Status ignored.  The result carries the number of send
attempts made; the source stores no event anywhere, so there is nothing
buffered for replay. -/

/-- Behaviour of one SendResponse call on the sink. -/
inductive SinkB where
  | sinkOk
  | sinkThrow
  | sinkFailStatus
deriving DecidableEq

/-- Writer state: the atomic open flag and context non-nullness. -/
structure WState where
  wOpen : Bool
  hasCtx : Bool
deriving DecidableEq

/-- Result of one Write call: returned bool, new writer state, number of
SendResponse attempts made during the call. -/
structure WriteRes where
  res : Bool
  st : WState
  sends : Nat
deriving DecidableEq

/-- SseStreamWriter::Write translated from ssestreamwriter.h: reject when
closed; an encode failure closes the writer; a null context returns false
without closing; SendResponse is attempted once — an exception closes the
writer and yields false, while a returned failure Status is ignored (the
writer stays open and Write returns true). -/
def writerWrite (w : WState) (encOk : Bool) (beh : SinkB) : WriteRes :=
  if w.wOpen = false then { res := false, st := w, sends := 0 }
  else if encOk = false then { res := false, st := { w with wOpen := false }, sends := 0 }
  else if w.hasCtx = false then { res := false, st := w, sends := 0 }
  else
    match beh with
    | .sinkOk => { res := true, st := w, sends := 1 }
    | .sinkThrow => { res := false, st := { w with wOpen := false }, sends := 1 }
    | .sinkFailStatus => { res := true, st := w, sends := 1 }

/-- SseStreamWriter::Close translated from ssestreamwriter.h: a single winning
compare-and-swap from open to closed; on the winning transition, and only
then, the context's CloseConnection is invoked (when the context is
non-null).  Returns the new state and whether CloseConnection was called. -/
def writerClose (w : WState) : WState × Bool :=
  if w.wOpen then ({ w with wOpen := false }, w.hasCtx) else (w, false)

/-- C2 (counterexample to the claim as stated): on an open writer with a live
context, a SendResponse call that reports a failure Status without throwing
leaves the writer open and makes Write return true — the returned Status is
ignored by Write, so not every sink failure flips the writer closed. -/
theorem C2_counterexample :
    (writerWrite { wOpen := true, hasCtx := true } true .sinkFailStatus).res = true
    ∧ (writerWrite { wOpen := true, hasCtx := true } true .sinkFailStatus).st.wOpen = true := by
  decide

/-- C2 (amended): for every open writer with a live context, an exception
thrown by SendResponse during Write flips the writer to closed and makes
Write return false; every Write call makes at most one send attempt (no
retry), and the writer state stores no event, so nothing is buffered for
replay.  A failure Status returned by SendResponse, however, is ignored:
Write returns true and the writer stays open. -/
theorem C2_amended (w : WState) (ho : w.wOpen = true) (hc : w.hasCtx = true) :
    (writerWrite w true .sinkThrow).res = false
    ∧ (writerWrite w true .sinkThrow).st.wOpen = false
    ∧ (∀ (encOk : Bool) (beh : SinkB), (writerWrite w encOk beh).sends ≤ 1)
    ∧ (writerWrite w true .sinkFailStatus).res = true
    ∧ (writerWrite w true .sinkFailStatus).st.wOpen = true := by
  obtain ⟨o, c⟩ := w
  cases o
  · cases ho
  · cases c
    · cases hc
    · refine ⟨by decide, by decide, ?_, by decide, by decide⟩
      intro encOk beh
      cases encOk <;> cases beh <;> decide

/-- Witness for C2 (amended) at the concrete open writer. -/
theorem C2_amended_witness :
    (writerWrite { wOpen := true, hasCtx := true } true .sinkThrow).res = false
    ∧ (writerWrite { wOpen := true, hasCtx := true } true .sinkThrow).st.wOpen = false
    ∧ (∀ (encOk : Bool) (beh : SinkB),
        (writerWrite { wOpen := true, hasCtx := true } encOk beh).sends ≤ 1)
    ∧ (writerWrite { wOpen := true, hasCtx := true } true .sinkFailStatus).res = true
    ∧ (writerWrite { wOpen := true, hasCtx := true } true .sinkFailStatus).st.wOpen = true :=
  C2_amended { wOpen := true, hasCtx := true } rfl rfl

/-- C6: Close is idempotent.  For every writer state: the first Close leaves
the writer closed and calls the context's CloseConnection exactly when it won
the open-to-closed transition with a live context; a second Close changes
nothing and has no side effect; and after any Close, every Write returns
false and makes no send attempt. -/
theorem C6_close_idempotent (w : WState) :
    (writerClose w).1.wOpen = false
    ∧ writerClose (writerClose w).1 = ((writerClose w).1, false)
    ∧ (writerClose w).2 = (w.wOpen && w.hasCtx)
    ∧ ∀ (encOk : Bool) (beh : SinkB),
        (writerWrite (writerClose w).1 encOk beh).res = false
        ∧ (writerWrite (writerClose w).1 encOk beh).sends = 0 := by
  obtain ⟨o, c⟩ := w
  refine ⟨?_, ?_, ?_, ?_⟩
  · cases o <;> cases c <;> decide
  · cases o <;> cases c <;> decide
  · cases o <;> cases c <;> decide
  · intro encOk beh
    cases o <;> cases c <;> cases encOk <;> cases beh <;> decide

/-! ## Connection registry (HttpSseService, HttpSseService.cc)

Each public operation is modelled as a function on the registry state that
also returns the sequence of abstract actions it performs: acquiring and
releasing the registry lock mu_, map membership operations (insert, lookup,
erase, snapshot), calling a writer's Write, calling a writer's Close, and
calling a context's CloseConnection.  The lock-depth at which an action
occurs is then read off the trace.  -/

/-- Abstract actions of a registry operation. -/
inductive Act where
  | acq
  | rel
  | mapOp
  | wWrite (cid : Nat)
  | wClose (cid : Nat)
  | ctxClose (cid : Nat)
deriving DecidableEq

/-- One registry entry: its id, the Connection's atomic open flag, whether a
writer and a context pointer are present, and the writer's own state. -/
structure Conn where
  cid : Nat
  connOpen : Bool
  hasWriter : Bool
  ctxP : Bool
  w : WState
deriving DecidableEq

/-- Registry state: the connection map (as an association list in insertion
order) and the next client id. -/
structure RegState where
  conns : List Conn
  nextId : Nat
deriving DecidableEq

/-- Map lookup by client id. -/
def findC (l : List Conn) (i : Nat) : Option Conn :=
  l.find? (fun c => c.cid == i)

/-- Map erase by client id (first matching entry). -/
def eraseC (l : List Conn) (i : Nat) : List Conn :=
  l.eraseP (fun c => c.cid == i)

/-- Store an updated writer state into the entry with the given id. -/
def updateW (l : List Conn) (i : Nat) (w2 : WState) : List Conn :=
  l.map (fun c => if c.cid == i then { c with w := w2 } else c)

/-- Actions performed by calling writer->Close() on a connection: the Close
call itself and, when it wins the open-to-closed transition with a live
writer context, the context's CloseConnection. -/
def closeTrace (c : Conn) (i : Nat) : List Act :=
  if c.hasWriter then
    (if c.w.wOpen && c.w.hasCtx then [Act.wClose i, Act.ctxClose i] else [Act.wClose i])
  else []

/-- HttpSseService::UnregisterConnection: under the lock, look the entry up,
call writer->Close() (still under the lock), reset the context and erase the
entry. -/
def unregisterConn (st : RegState) (i : Nat) : RegState × List Act :=
  match findC st.conns i with
  | none => (st, [Act.acq, Act.mapOp, Act.rel])
  | some c =>
    ({ st with conns := eraseC st.conns i },
     [Act.acq, Act.mapOp] ++ closeTrace c i ++ [Act.mapOp, Act.rel])

/-- HttpSseService::AcceptConnection and RegisterConnection: a null context
yields 0 with no state change; otherwise a writer is constructed without
initial headers (no I/O) and the entry is inserted under the lock. -/
def acceptConnection (st : RegState) (ctxPresent : Bool) : Nat × RegState × List Act :=
  if ctxPresent = false then (0, st, [])
  else
    (st.nextId,
     { conns := st.conns ++
         [{ cid := st.nextId, connOpen := true, hasWriter := true, ctxP := true,
            w := { wOpen := true, hasCtx := true } }],
       nextId := st.nextId + 1 },
     [Act.acq, Act.mapOp, Act.rel])

/-- HttpSseService::SendToClient: look up under the lock, release it, write
outside the lock, and on a failed write escalate to UnregisterConnection. -/
def sendToClient (st : RegState) (encOk : Bool) (beh : Nat → SinkB) (i : Nat) :
    Bool × RegState × List Act :=
  match findC st.conns i with
  | none => (false, st, [Act.acq, Act.mapOp, Act.rel])
  | some c =>
    if c.connOpen = false ∨ c.hasWriter = false then (false, st, [Act.acq, Act.mapOp, Act.rel])
    else
      let wr := writerWrite c.w encOk (beh i)
      let st1 := { st with conns := updateW st.conns i wr.st }
      if wr.res then (true, st1, [Act.acq, Act.mapOp, Act.rel, Act.wWrite i])
      else
        let u := unregisterConn st1 i
        (false, u.1, [Act.acq, Act.mapOp, Act.rel, Act.wWrite i] ++ u.2)

/-- The iteration of HttpSseService::Broadcast over the snapshot: skip closed
or writerless entries, write to each remaining writer outside the lock,
count successes, and unregister every failing connection. -/
def broadcastLoop (encOk : Bool) (beh : Nat → SinkB) : List Conn → RegState → Nat × RegState × List Act
  | [], st => (0, st, [])
  | c :: rest, st =>
    if c.connOpen = false ∨ c.hasWriter = false then broadcastLoop encOk beh rest st
    else
      let wr := writerWrite c.w encOk (beh c.cid)
      let st1 := { st with conns := updateW st.conns c.cid wr.st }
      if wr.res then
        let r := broadcastLoop encOk beh rest st1
        (r.1 + 1, r.2.1, Act.wWrite c.cid :: r.2.2)
      else
        let u := unregisterConn st1 c.cid
        let r := broadcastLoop encOk beh rest u.1
        (r.1, r.2.1, Act.wWrite c.cid :: (u.2 ++ r.2.2))

/-- HttpSseService::Broadcast: snapshot the map under the lock, then iterate
the snapshot outside the lock. -/
def broadcast (st : RegState) (encOk : Bool) (beh : Nat → SinkB) : Nat × RegState × List Act :=
  (broadcastLoop encOk beh st.conns st |>.1,
   broadcastLoop encOk beh st.conns st |>.2.1,
   [Act.acq, Act.mapOp, Act.rel] ++ (broadcastLoop encOk beh st.conns st |>.2.2))

/-- HttpSseService::CloseClient: look up under the lock, release it, close the
writer outside the lock, then UnregisterConnection. -/
def closeClient (st : RegState) (i : Nat) : RegState × List Act :=
  match findC st.conns i with
  | none => (st, [Act.acq, Act.mapOp, Act.rel])
  | some c =>
    let st1 :=
      if c.hasWriter then { st with conns := updateW st.conns i { c.w with wOpen := false } }
      else st
    let u := unregisterConn st1 i
    (u.1, [Act.acq, Act.mapOp, Act.rel] ++ closeTrace c i ++ u.2)

/-- The per-connection cleanup of HttpSseService::Shutdown, outside the lock:
close the writer, then close the connection's own context. -/
def shutdownLoop : List Conn → List Act
  | [] => []
  | c :: rest =>
    closeTrace c c.cid ++ (if c.ctxP then [Act.ctxClose c.cid] else []) ++ shutdownLoop rest

/-- HttpSseService::Shutdown: snapshot and clear the map under the lock, then
close every snapshotted connection outside the lock. -/
def shutdown (st : RegState) : RegState × List Act :=
  ({ st with conns := [] }, [Act.acq, Act.mapOp, Act.rel] ++ shutdownLoop st.conns)

/-- Lock depth after executing a trace, starting from a given depth. -/
def dep : Nat → List Act → Nat
  | d, [] => d
  | d, Act.acq :: r => dep (d + 1) r
  | d, Act.rel :: r => dep (d - 1) r
  | d, Act.mapOp :: r => dep d r
  | d, Act.wWrite _ :: r => dep d r
  | d, Act.wClose _ :: r => dep d r
  | d, Act.ctxClose _ :: r => dep d r

/-- The I/O actions named by the registry invariant: writer Write, writer
Close, context CloseConnection. -/
def isIO : Act → Bool
  | .wWrite _ => true
  | .wClose _ => true
  | .ctxClose _ => true
  | _ => false

/-- Writer Write actions only. -/
def isWr : Act → Bool
  | .wWrite _ => true
  | _ => false

/-- Map membership actions only. -/
def isMap : Act → Bool
  | .mapOp => true
  | _ => false

/-- Some action satisfying p occurs while the lock is held (depth above 0). -/
def hitsUnder (p : Act → Bool) : Nat → List Act → Bool
  | _, [] => false
  | d, Act.acq :: r => hitsUnder p (d + 1) r
  | d, Act.rel :: r => hitsUnder p (d - 1) r
  | d, a :: r => (p a && decide (0 < d)) || hitsUnder p d r

/-- Some action satisfying p occurs while the lock is not held (depth 0). -/
def hitsOutside (p : Act → Bool) : Nat → List Act → Bool
  | _, [] => false
  | d, Act.acq :: r => hitsOutside p (d + 1) r
  | d, Act.rel :: r => hitsOutside p (d - 1) r
  | d, a :: r => (p a && decide (d = 0)) || hitsOutside p d r

/-- A healthy registered connection with a live writer and context. -/
def healthyConn (i : Nat) : Conn :=
  { cid := i, connOpen := true, hasWriter := true, ctxP := true,
    w := { wOpen := true, hasCtx := true } }

/-- A registry holding three healthy connections with ids 1, 2, 3. -/
def reg3 : RegState :=
  { conns := [healthyConn 1, healthyConn 2, healthyConn 3], nextId := 4 }

/-- Sink behaviour where exactly the connection with the given id always
fails (its SendResponse throws, so its Write returns false). -/
def oneFailing (bad : Nat) : Nat → SinkB :=
  fun i => if i == bad then SinkB.sinkThrow else SinkB.sinkOk

/-- C3 (counterexample to the claim as stated): UnregisterConnection, invoked
on a registry whose entry still has an open writer with a live context,
performs I/O — the writer Close call and through it the context's
CloseConnection — while holding the registry lock mu_. -/
theorem C3_counterexample :
    hitsUnder isIO 0 (unregisterConn { conns := [healthyConn 1], nextId := 2 } 1).2 = true := by
  decide

/-- C4: with three healthy registered connections of which exactly one
(whichever of the three) has an always-failing sink, Broadcast returns 2 —
the number of successful writes — and the registry's live connection count
drops from 3 to 2, the failing connection having been unregistered. -/
theorem C4_broadcast_partial_failure :
    ∀ j : Fin 3,
      reg3.conns.length = 3
      ∧ (broadcast reg3 true (oneFailing (j.val + 1))).1 = 2
      ∧ (broadcast reg3 true (oneFailing (j.val + 1))).2.1.conns.length = 2
      ∧ findC (broadcast reg3 true (oneFailing (j.val + 1))).2.1.conns (j.val + 1) = none := by
  decide

/-- Lock depth across a concatenated trace. -/
theorem dep_append (d : Nat) (x y : List Act) : dep d (x ++ y) = dep (dep d x) y := by
  induction x generalizing d with
  | nil => rfl
  | cons a r ih => cases a <;> simp [dep, ih]

/-- hitsUnder across a concatenated trace. -/
theorem hitsUnder_append (p : Act → Bool) (d : Nat) (x y : List Act) :
    hitsUnder p d (x ++ y) = (hitsUnder p d x || hitsUnder p (dep d x) y) := by
  induction x generalizing d with
  | nil => simp [hitsUnder, dep]
  | cons a r ih => cases a <;> simp [hitsUnder, dep, ih, Bool.or_assoc]

/-- hitsOutside across a concatenated trace. -/
theorem hitsOutside_append (p : Act → Bool) (d : Nat) (x y : List Act) :
    hitsOutside p d (x ++ y) = (hitsOutside p d x || hitsOutside p (dep d x) y) := by
  induction x generalizing d with
  | nil => simp [hitsOutside, dep]
  | cons a r ih => cases a <;> simp [hitsOutside, dep, ih, Bool.or_assoc]

/-- closeTrace is lock-neutral. -/
theorem dep_closeTrace (c : Conn) (i : Nat) (d : Nat) : dep d (closeTrace c i) = d := by
  unfold closeTrace
  split
  · split <;> simp [dep]
  · rfl

/-- closeTrace contains no writer Write action. -/
theorem noWr_closeTrace (c : Conn) (i : Nat) (d : Nat) :
    hitsUnder isWr d (closeTrace c i) = false := by
  unfold closeTrace
  split
  · split <;> simp [hitsUnder, isWr]
  · rfl

/-- closeTrace contains no map action. -/
theorem noMapOut_closeTrace (c : Conn) (i : Nat) (d : Nat) :
    hitsOutside isMap d (closeTrace c i) = false := by
  unfold closeTrace
  split
  · split <;> simp [hitsOutside, isMap]
  · rfl

/-- At lock depth 0, the actions of closeTrace are not performed under the
lock. -/
theorem noIOUnder_closeTrace (c : Conn) (i : Nat) :
    hitsUnder isIO 0 (closeTrace c i) = false := by
  unfold closeTrace
  split
  · split <;> simp [hitsUnder, isIO]
  · rfl

/-- The UnregisterConnection trace is lock-balanced. -/
theorem dep_unregTr (st : RegState) (i : Nat) (d : Nat) :
    dep d (unregisterConn st i).2 = d := by
  unfold unregisterConn
  cases hf : findC st.conns i with
  | none => simp [dep]
  | some c => simp [dep, dep_append, dep_closeTrace]

/-- UnregisterConnection performs no writer Write action at all. -/
theorem noWr_unregTr (st : RegState) (i : Nat) (d : Nat) :
    hitsUnder isWr d (unregisterConn st i).2 = false := by
  unfold unregisterConn
  cases hf : findC st.conns i with
  | none => simp [hitsUnder, isWr]
  | some c =>
    simp [hitsUnder, isWr, hitsUnder_append, dep, dep_append, dep_closeTrace,
      noWr_closeTrace]

/-- All map actions of UnregisterConnection happen under the lock. -/
theorem noMapOut_unregTr (st : RegState) (i : Nat) (d : Nat) :
    hitsOutside isMap d (unregisterConn st i).2 = false := by
  unfold unregisterConn
  cases hf : findC st.conns i with
  | none => simp [hitsOutside, isMap]
  | some c =>
    simp [hitsOutside, isMap, hitsOutside_append, dep, dep_append, dep_closeTrace,
      noMapOut_closeTrace]

/-- The broadcast iteration writes outside the lock, keeps the lock balanced,
and performs map actions only inside embedded UnregisterConnection calls
(hence under the lock). -/
theorem broadcastLoop_trace_facts (encOk : Bool) (beh : Nat → SinkB) :
    ∀ (l : List Conn) (st : RegState),
      dep 0 (broadcastLoop encOk beh l st).2.2 = 0
      ∧ hitsUnder isWr 0 (broadcastLoop encOk beh l st).2.2 = false
      ∧ hitsOutside isMap 0 (broadcastLoop encOk beh l st).2.2 = false := by
  intro l
  induction l with
  | nil => intro st; exact ⟨rfl, rfl, rfl⟩
  | cons c rest ih =>
    intro st
    simp only [broadcastLoop]
    split
    · exact ih st
    · split
      · obtain ⟨h1, h2, h3⟩ := ih _
        refine ⟨?_, ?_, ?_⟩
        · simpa [dep] using h1
        · simpa [hitsUnder, isWr] using h2
        · simpa [hitsOutside, isMap] using h3
      · obtain ⟨h1, h2, h3⟩ :=
          ih (unregisterConn
            { conns := updateW st.conns c.cid (writerWrite c.w encOk (beh c.cid)).st,
              nextId := st.nextId } c.cid).1
        refine ⟨?_, ?_, ?_⟩
        · simp [dep, dep_append, dep_unregTr, h1]
        · simp [hitsUnder, isWr, hitsUnder_append, dep_unregTr, noWr_unregTr, h2]
        · simp [hitsOutside, isMap, hitsOutside_append, dep_unregTr, noMapOut_unregTr, h3]

/-- The shutdown iteration runs entirely outside the lock: it is
lock-neutral, performs no writer Write and no map action, and none of its
I/O happens under the lock when started at depth 0. -/
theorem shutdownLoop_trace_facts :
    ∀ (l : List Conn),
      dep 0 (shutdownLoop l) = 0
      ∧ hitsUnder isWr 0 (shutdownLoop l) = false
      ∧ hitsOutside isMap 0 (shutdownLoop l) = false
      ∧ hitsUnder isIO 0 (shutdownLoop l) = false := by
  intro l
  induction l with
  | nil => exact ⟨rfl, rfl, rfl, rfl⟩
  | cons c rest ih =>
    obtain ⟨h1, h2, h3, h4⟩ := ih
    rw [shutdownLoop]
    refine ⟨?_, ?_, ?_, ?_⟩
    · cases hc : c.ctxP <;>
        simp [dep_append, dep_closeTrace, hc, dep, h1]
    · cases hc : c.ctxP <;>
        simp [hitsUnder_append, dep_append, dep_closeTrace, noWr_closeTrace, hc,
          hitsUnder, isWr, dep, h2]
    · cases hc : c.ctxP <;>
        simp [hitsOutside_append, dep_append, dep_closeTrace, noMapOut_closeTrace, hc,
          hitsOutside, isMap, dep, h3]
    · cases hc : c.ctxP <;>
        simp [hitsUnder_append, dep_append, dep_closeTrace, noIOUnder_closeTrace, hc,
          hitsUnder, isIO, dep, h4]

/-- C3 (amended): for every registry state and inputs, every operation keeps
all its map membership actions under the registry lock, and no operation
performs a writer Write while the lock is held; AcceptConnection and
Shutdown perform no I/O under the lock at all.  The one deviation the
counterexample forces remains: UnregisterConnection (also where it is
invoked from SendToClient, Broadcast and CloseClient) calls writer Close —
and, when the writer is still open with a live context, the context's
CloseConnection — while holding the lock. -/
theorem C3_amended (st : RegState) (ctxp encOk : Bool) (beh : Nat → SinkB) (i : Nat) :
    (hitsUnder isWr 0 (acceptConnection st ctxp).2.2 = false
      ∧ hitsOutside isMap 0 (acceptConnection st ctxp).2.2 = false
      ∧ hitsUnder isIO 0 (acceptConnection st ctxp).2.2 = false)
    ∧ (hitsUnder isWr 0 (sendToClient st encOk beh i).2.2 = false
      ∧ hitsOutside isMap 0 (sendToClient st encOk beh i).2.2 = false)
    ∧ (hitsUnder isWr 0 (broadcast st encOk beh).2.2 = false
      ∧ hitsOutside isMap 0 (broadcast st encOk beh).2.2 = false)
    ∧ (hitsUnder isWr 0 (closeClient st i).2 = false
      ∧ hitsOutside isMap 0 (closeClient st i).2 = false)
    ∧ (hitsUnder isWr 0 (unregisterConn st i).2 = false
      ∧ hitsOutside isMap 0 (unregisterConn st i).2 = false)
    ∧ (hitsUnder isWr 0 (shutdown st).2 = false
      ∧ hitsOutside isMap 0 (shutdown st).2 = false
      ∧ hitsUnder isIO 0 (shutdown st).2 = false) := by
  refine ⟨?_, ?_, ?_, ?_, ?_, ?_⟩
  · unfold acceptConnection
    split <;> exact ⟨rfl, rfl, rfl⟩
  · simp only [sendToClient]
    split
    · exact ⟨rfl, rfl⟩
    · split
      · exact ⟨rfl, rfl⟩
      · split
        · exact ⟨rfl, rfl⟩
        · constructor
          · simp [hitsUnder, isWr, hitsUnder_append, dep, noWr_unregTr]
          · simp [hitsOutside, isMap, hitsOutside_append, dep, noMapOut_unregTr]
  · obtain ⟨h1, h2, h3⟩ := broadcastLoop_trace_facts encOk beh st.conns st
    constructor
    · simp [broadcast, hitsUnder_append, dep, hitsUnder, isWr, h2]
    · simp [broadcast, hitsOutside_append, dep, hitsOutside, isMap, h3]
  · simp only [closeClient]
    split
    · exact ⟨rfl, rfl⟩
    · constructor
      · simp [hitsUnder, isWr, hitsUnder_append, dep, dep_append, dep_closeTrace,
          noWr_closeTrace, noWr_unregTr]
      · simp [hitsOutside, isMap, hitsOutside_append, dep, dep_append, dep_closeTrace,
          noMapOut_closeTrace, noMapOut_unregTr]
  · exact ⟨noWr_unregTr st i 0, noMapOut_unregTr st i 0⟩
  · obtain ⟨h1, h2, h3, h4⟩ := shutdownLoop_trace_facts st.conns
    refine ⟨?_, ?_, ?_⟩
    · simp [shutdown, hitsUnder_append, dep, hitsUnder, isWr, h2]
    · simp [shutdown, hitsOutside_append, dep, hitsOutside, isMap, h3]
    · simp [shutdown, hitsUnder_append, dep, hitsUnder, isIO, h4]

/-! ## Multiplexed stream handler (HttpSseStreamHandler,
trpc/stream/http_sse/http_sse_stream.h)

The handler's map is modelled by its key set (an id list); maxStreams is the
capacity bound. -/

/-- Handler state: the ids of the streams in streams_ and max_streams_. -/
structure Handler where
  streams : List Nat
  maxStreams : Nat
deriving DecidableEq

/-- HttpSseStreamHandler::CreateStream translated from the source: construct
and initialize a fresh stream for the id — with no capacity check and no
insertion into the streams_ map; it returns none only when the stream's own
Init fails. -/
def createStream (h : Handler) (initOk : Bool) (sid : Nat) : Option Nat × Handler :=
  if initOk then (some sid, h) else (none, h)

/-- HttpSseStreamHandler::IsNewStream: true only for an unseen id while the
stream count is below max_streams. -/
def isNewStream (h : Handler) (sid : Nat) : Bool :=
  if h.streams.contains sid then false
  else if h.maxStreams ≤ h.streams.length then false
  else true

/-- HttpSseStreamHandler::PushMessage: forward to the existing stream, or
lazily create and insert a stream when capacity allows; at capacity the
chunk for a new id is dropped with a warning. -/
def pushMessage (h : Handler) (initOk : Bool) (sid : Nat) : Handler :=
  if h.streams.contains sid then h
  else if h.maxStreams ≤ h.streams.length then h
  else
    match (createStream h initOk sid).1 with
    | none => h
    | some _ => { h with streams := h.streams ++ [sid] }

/-- A handler at capacity: max_streams = 3 with streams 1, 2, 3 present. -/
def handlerFull3 : Handler := { streams := [1, 2, 3], maxStreams := 3 }

/-- C5 (code_bug evidence): with max_streams = 3 and streams 1,2,3 present,
CreateStream(4) returns a fresh stream — not null — because the source's
CreateStream checks no capacity and never inserts into the map (the count
stays 3 for that reason alone), contradicting the repository's own
MaxStreamsLimit and CreateStream tests; PushMessage, by contrast, does drop
an inbound chunk for a new id at capacity without creating a stream, and
IsNewStream is false at capacity. -/
theorem C5_code_eval :
    (createStream handlerFull3 true 4).1 = some 4
    ∧ (createStream handlerFull3 true 4).2.streams.length = 3
    ∧ pushMessage handlerFull3 true 4 = handlerFull3
    ∧ isNewStream handlerFull3 4 = false := by
  decide

/-! ## SSE stream readiness (HttpSseStream, http_sse_stream.cc)

The stream state is the stream_ready_ flag, the parent HttpStream's own
readiness (an external collaborator, modelled as a state bit), and the list
of payloads handed to the parent's SendData.  The parent's per-call result
is a behaviour parameter.  Payload formatting (FormatSseMessage with its
stored event-id generator) is a function parameter: its output never affects
readiness. -/

/-- RetCode of a stream send. -/
inductive RC where
  | kSuccess
  | kError
deriving DecidableEq

/-- A Status: OK or an error with a message. -/
inductive StatusM where
  | ok
  | err (msg : String)
deriving DecidableEq

/-- HttpSseStream state. -/
structure SState where
  streamReady : Bool
  parentReady : Bool
  transmitted : List String
deriving DecidableEq

/-- HttpSseStream::IsReady: stream_ready_ and the parent's IsReady. -/
def sseIsReady (s : SState) : Bool :=
  s.streamReady && s.parentReady

/-- HttpSseStream::SendData override: set stream_ready_ (before calling the
parent, so even a failing call marks the stream ready), hand the payload to
the parent, and return the parent's result. -/
def sendDataOp (parentRes : RC) (payload : String) (s : SState) : RC × SState :=
  (parentRes, { s with streamReady := true, transmitted := s.transmitted ++ [payload] })

/-- HttpSseStream::SendInit override: set stream_ready_, then the parent. -/
def sendInitOp (s : SState) : SState :=
  { s with streamReady := true }

/-- HttpSseStream::SendClose override: clear stream_ready_. -/
def sendCloseOp (s : SState) : SState :=
  { s with streamReady := false }

/-- HttpSseStream::SendSseData: send the payload through SendData and map a
parent failure to a non-OK status. -/
def sendSseData (parentRes : RC) (payload : String) (s : SState) : StatusM × SState :=
  match sendDataOp parentRes payload s with
  | (RC.kSuccess, s2) => (StatusM.ok, s2)
  | (RC.kError, s2) => (StatusM.err "Failed to send SSE data", s2)

/-- HttpSseStream::SendEvent: readiness gate, then format and send. -/
def sendEvent (fmt : SseEvent → String) (parentRes : RC) (s : SState) (ev : SseEvent) :
    StatusM × SState :=
  if sseIsReady s = false then (StatusM.err "Stream is not ready", s)
  else sendSseData parentRes (fmt ev) s

/-- HttpSseStream::SendEvents: readiness gate, then send the concatenation. -/
def sendEvents (fmt : SseEvent → String) (parentRes : RC) (s : SState) (evs : List SseEvent) :
    StatusM × SState :=
  if sseIsReady s = false then (StatusM.err "Stream is not ready", s)
  else sendSseData parentRes (String.join (evs.map fmt)) s

/-- HttpSseStream::SendComment: readiness gate, then send the comment line. -/
def sendComment (parentRes : RC) (s : SState) (comment : String) : StatusM × SState :=
  if sseIsReady s = false then (StatusM.err "Stream is not ready", s)
  else sendSseData parentRes (":" ++ comment ++ "\n\n") s

/-- HttpSseStream::SendRetry: readiness gate, then send the retry line. -/
def sendRetry (parentRes : RC) (s : SState) (ms : Nat) : StatusM × SState :=
  if sseIsReady s = false then (StatusM.err "Stream is not ready", s)
  else sendSseData parentRes ("retry: " ++ toString ms ++ "\n\n") s

/-- Operations invoked on a stream, with the parent's result where one is
consulted. -/
inductive SOp where
  | opSendInit
  | opSendData (res : RC) (payload : String)
  | opSendEvent (res : RC) (ev : SseEvent)
  | opSendEvents (res : RC) (evs : List SseEvent)
  | opSendComment (res : RC) (c : String)
  | opSendRetry (res : RC) (ms : Nat)
  | opSendClose
deriving DecidableEq

/-- The operations that set stream_ready_. -/
def isInitOrData : SOp → Bool
  | .opSendInit => true
  | .opSendData _ _ => true
  | _ => false

/-- Apply one operation to the stream state. -/
def stepS (fmt : SseEvent → String) (s : SState) : SOp → SState
  | .opSendInit => sendInitOp s
  | .opSendData r p => (sendDataOp r p s).2
  | .opSendEvent r ev => (sendEvent fmt r s ev).2
  | .opSendEvents r evs => (sendEvents fmt r s evs).2
  | .opSendComment r c => (sendComment r s c).2
  | .opSendRetry r ms => (sendRetry r s ms).2
  | .opSendClose => sendCloseOp s

/-- Run a list of operations. -/
def runS (fmt : SseEvent → String) (s : SState) : List SOp → SState
  | [] => s
  | op :: rest => runS fmt (stepS fmt s op) rest

/-- A fresh stream: stream_ready_ is false, nothing transmitted; the parent's
readiness is arbitrary. -/
def initS (parentReady : Bool) : SState :=
  { streamReady := false, parentReady := parentReady, transmitted := [] }

/-- A history without SendInit or SendData keeps the stream not ready and
transmits nothing. -/
theorem runS_not_ready (fmt : SseEvent → String) :
    ∀ (ops : List SOp), (∀ op ∈ ops, isInitOrData op = false) →
      ∀ s : SState, s.streamReady = false →
        (runS fmt s ops).streamReady = false
        ∧ (runS fmt s ops).transmitted = s.transmitted := by
  intro ops
  induction ops with
  | nil => intro _ s hs; exact ⟨hs, rfl⟩
  | cons op rest ih =>
    intro h s hs
    have hop : isInitOrData op = false := h op (List.mem_cons_self op rest)
    have hrest : ∀ op2 ∈ rest, isInitOrData op2 = false :=
      fun op2 hm => h op2 (List.mem_cons_of_mem op hm)
    have hstep : (stepS fmt s op).streamReady = false ∧ (stepS fmt s op).transmitted = s.transmitted := by
      cases op with
      | opSendInit => simp [isInitOrData] at hop
      | opSendData r p => simp [isInitOrData] at hop
      | opSendEvent r ev => simp [stepS, sendEvent, sseIsReady, hs]
      | opSendEvents r evs => simp [stepS, sendEvents, sseIsReady, hs]
      | opSendComment r c => simp [stepS, sendComment, sseIsReady, hs]
      | opSendRetry r ms => simp [stepS, sendRetry, sseIsReady, hs]
      | opSendClose => simp [stepS, sendCloseOp, hs]
    obtain ⟨h1, h2⟩ := ih hrest (stepS fmt s op) hstep.1
    rw [runS]
    exact ⟨h1, h2.trans hstep.2⟩

/-- C10 (counterexample to the claim as stated): SendData marks the stream
ready before calling the parent, so after one SendData call that FAILS (the
parent returns kError — no SendInit or SendData has succeeded on this
stream), a subsequent SendEvent returns OK instead of the required
"Stream is not ready" error. -/
theorem C10_counterexample :
    (sendDataOp RC.kError "x" (initS true)).1 = RC.kError
    ∧ (sendEvent (fun _ => "data: y\n\n") RC.kSuccess
        (sendDataOp RC.kError "x" (initS true)).2 { data := "y" }).1 = StatusM.ok := by
  decide

/-- C10 (amended): on an HttpSseStream on which no SendInit or SendData has
yet been CALLED, every SendEvent, SendEvents, SendComment and SendRetry
returns the non-OK status "Stream is not ready" and transmits nothing; the
stream reports IsReady false, and these operations can succeed only after a
first SendInit or SendData call has marked the stream ready (the mark is set
by the call itself, even when the underlying send fails). -/
theorem C10_amended (fmt : SseEvent → String) (pr : Bool) (ops : List SOp)
    (h : ∀ op ∈ ops, isInitOrData op = false) :
    sseIsReady (runS fmt (initS pr) ops) = false
    ∧ (runS fmt (initS pr) ops).transmitted = []
    ∧ (∀ r ev, (sendEvent fmt r (runS fmt (initS pr) ops) ev).1 = StatusM.err "Stream is not ready"
        ∧ (sendEvent fmt r (runS fmt (initS pr) ops) ev).2.transmitted
            = (runS fmt (initS pr) ops).transmitted)
    ∧ (∀ r evs, (sendEvents fmt r (runS fmt (initS pr) ops) evs).1 = StatusM.err "Stream is not ready"
        ∧ (sendEvents fmt r (runS fmt (initS pr) ops) evs).2.transmitted
            = (runS fmt (initS pr) ops).transmitted)
    ∧ (∀ r c, (sendComment r (runS fmt (initS pr) ops) c).1 = StatusM.err "Stream is not ready"
        ∧ (sendComment r (runS fmt (initS pr) ops) c).2.transmitted
            = (runS fmt (initS pr) ops).transmitted)
    ∧ (∀ r ms, (sendRetry r (runS fmt (initS pr) ops) ms).1 = StatusM.err "Stream is not ready"
        ∧ (sendRetry r (runS fmt (initS pr) ops) ms).2.transmitted
            = (runS fmt (initS pr) ops).transmitted) := by
  obtain ⟨h1, h2⟩ := runS_not_ready fmt ops h (initS pr) rfl
  refine ⟨?_, ?_, ?_, ?_, ?_, ?_⟩
  · simp [sseIsReady, h1]
  · simpa [initS] using h2
  · intro r ev; constructor <;> simp [sendEvent, sseIsReady, h1]
  · intro r evs; constructor <;> simp [sendEvents, sseIsReady, h1]
  · intro r c; constructor <;> simp [sendComment, sseIsReady, h1]
  · intro r ms; constructor <;> simp [sendRetry, sseIsReady, h1]

/-- Witness for C10 (amended): a stream that has only seen a SendClose. -/
theorem C10_amended_witness :
    sseIsReady (runS (fun _ => "") (initS true) [SOp.opSendClose]) = false
    ∧ (runS (fun _ => "") (initS true) [SOp.opSendClose]).transmitted = []
    ∧ (∀ r ev, (sendEvent (fun _ => "") r (runS (fun _ => "") (initS true) [SOp.opSendClose]) ev).1
            = StatusM.err "Stream is not ready"
        ∧ (sendEvent (fun _ => "") r (runS (fun _ => "") (initS true) [SOp.opSendClose]) ev).2.transmitted
            = (runS (fun _ => "") (initS true) [SOp.opSendClose]).transmitted)
    ∧ (∀ r evs, (sendEvents (fun _ => "") r (runS (fun _ => "") (initS true) [SOp.opSendClose]) evs).1
            = StatusM.err "Stream is not ready"
        ∧ (sendEvents (fun _ => "") r (runS (fun _ => "") (initS true) [SOp.opSendClose]) evs).2.transmitted
            = (runS (fun _ => "") (initS true) [SOp.opSendClose]).transmitted)
    ∧ (∀ r c, (sendComment r (runS (fun _ => "") (initS true) [SOp.opSendClose]) c).1
            = StatusM.err "Stream is not ready"
        ∧ (sendComment r (runS (fun _ => "") (initS true) [SOp.opSendClose]) c).2.transmitted
            = (runS (fun _ => "") (initS true) [SOp.opSendClose]).transmitted)
    ∧ (∀ r ms, (sendRetry r (runS (fun _ => "") (initS true) [SOp.opSendClose]) ms).1
            = StatusM.err "Stream is not ready"
        ∧ (sendRetry r (runS (fun _ => "") (initS true) [SOp.opSendClose]) ms).2.transmitted
            = (runS (fun _ => "") (initS true) [SOp.opSendClose]).transmitted) :=
  C10_amended (fun _ => "") true [SOp.opSendClose]
    (fun op hm => by
      rcases List.mem_singleton.mp hm with rfl
      rfl)

/-! ## Synchronous client bridge filter flow
(HttpSseStreamProxy::GetStreamReaderWriter,
trpc/client/http/http_sse/http_sse_stream_proxy.cc)

The filter chain's outcome at each point and the future's behaviour are
parameters; the model records the handle returned, the error status set on
the context, and which filter points were run, in order. -/

/-- Filter outcome. -/
inductive FStatus where
  | fContinue
  | fReject
deriving DecidableEq

/-- The filter points the bridge can run. -/
inductive FPoint where
  | preRpcInvoke
  | preSendMsg
  | postRpcInvoke
deriving DecidableEq

/-- Behaviour of the stream-establishment future. -/
inductive FutB where
  | waitFail
  | futFailed
  | okHandle (h : Nat)
deriving DecidableEq

/-- Observable outcome of GetStreamReaderWriter. -/
structure BridgeOut where
  handle : Option Nat
  statusErr : Option String
  pointsRun : List FPoint
deriving DecidableEq

/-- GetStreamReaderWriter translated from the source: run the pre-rpc-invoke
point — a REJECT returns null immediately with a status and runs nothing
else; run the pre-send point — a REJECT sets a status, runs the
post-rpc-invoke cleanup point, and returns null; then wait on the future:
a wait failure or failed future yields null with a network-error status,
otherwise the handle is returned. -/
def getStreamReaderWriter (f : FPoint → FStatus) (fut : FutB) : BridgeOut :=
  if f FPoint.preRpcInvoke = FStatus.fReject then
    { handle := none, statusErr := some "filter PRE_RPC_INVOKE execute failed.",
      pointsRun := [FPoint.preRpcInvoke] }
  else if f FPoint.preSendMsg = FStatus.fReject then
    { handle := none, statusErr := some "filter PRE_SEND_MSG execute failed.",
      pointsRun := [FPoint.preRpcInvoke, FPoint.preSendMsg, FPoint.postRpcInvoke] }
  else
    match fut with
    | .waitFail =>
      { handle := none, statusErr := some "SSE stream creation wait failed.",
        pointsRun := [FPoint.preRpcInvoke, FPoint.preSendMsg] }
    | .futFailed =>
      { handle := none, statusErr := some "SSE stream creation failed",
        pointsRun := [FPoint.preRpcInvoke, FPoint.preSendMsg] }
    | .okHandle h =>
      { handle := some h, statusErr := none,
        pointsRun := [FPoint.preRpcInvoke, FPoint.preSendMsg] }

/-- C9 (counterexample to the claim as stated): a REJECT at the
pre-rpc-invoke point aborts with no handle, but the post-rpc-invoke cleanup
point is NOT run before returning. -/
theorem C9_counterexample :
    (getStreamReaderWriter (fun _ => FStatus.fReject) (FutB.okHandle 1)).handle = none
    ∧ FPoint.postRpcInvoke ∉
        (getStreamReaderWriter (fun _ => FStatus.fReject) (FutB.okHandle 1)).pointsRun := by
  decide

/-- C9 (amended): a REJECT from either the pre-invoke or the pre-send filter
point aborts the call — no handle and an error status on the context — but
the post-invoke cleanup point is run before returning only in the pre-send
reject case; a pre-invoke reject returns immediately without running it. -/
theorem C9_amended (f : FPoint → FStatus) (fut : FutB) :
    (f FPoint.preRpcInvoke = FStatus.fReject →
      (getStreamReaderWriter f fut).handle = none
      ∧ (getStreamReaderWriter f fut).statusErr.isSome = true
      ∧ (getStreamReaderWriter f fut).pointsRun = [FPoint.preRpcInvoke])
    ∧ (f FPoint.preRpcInvoke = FStatus.fContinue → f FPoint.preSendMsg = FStatus.fReject →
      (getStreamReaderWriter f fut).handle = none
      ∧ (getStreamReaderWriter f fut).statusErr.isSome = true
      ∧ FPoint.postRpcInvoke ∈ (getStreamReaderWriter f fut).pointsRun) := by
  constructor
  · intro h1
    simp [getStreamReaderWriter, h1]
  · intro h1 h2
    simp [getStreamReaderWriter, h1, h2]

/-- Witness for C9 (amended): the pre-send reject path at a concrete filter
configuration. -/
theorem C9_amended_witness :
    (getStreamReaderWriter
        (fun p => if p = FPoint.preSendMsg then FStatus.fReject else FStatus.fContinue)
        (FutB.okHandle 1)).handle = none
    ∧ (getStreamReaderWriter
        (fun p => if p = FPoint.preSendMsg then FStatus.fReject else FStatus.fContinue)
        (FutB.okHandle 1)).statusErr.isSome = true
    ∧ FPoint.postRpcInvoke ∈
        (getStreamReaderWriter
          (fun p => if p = FPoint.preSendMsg then FStatus.fReject else FStatus.fContinue)
          (FutB.okHandle 1)).pointsRun :=
  (C9_amended (fun p => if p = FPoint.preSendMsg then FStatus.fReject else FStatus.fContinue)
    (FutB.okHandle 1)).2 (by decide) (by decide)
